import Mathlib

/-!
Verification development for the similarity-computation engine of the
document-classification harness in dataset.py (shared-vocabulary encoding,
pivoted TF-IDF weighting, the word-mover worker, the sparse-soft-VSM
normalization, the term-similarity-matrix cache, the similarity dispatcher
and the classification evaluator).  Machine floats are modelled by an
extended-real type with signed infinities and NaN; external libraries
(numpy, scipy, gensim, pyemd) are modelled by their mathematical meaning,
and code of the repository that lives outside dataset.py is modelled from
the specification where a definition notes so.
-/

namespace RegEmb

open Classical

noncomputable section

/-- Sparse bag-of-words document: the stored (term id, weight) entries of one
column of a scipy sparse matrix.  Implicit zeros are the absent term ids. -/
abbrev Doc := List (Nat × ℝ)

/-- Extended value modelling an IEEE double: a finite real, a signed infinity,
or NaN.  Exact real arithmetic stands in for rounded arithmetic; only the
special values matter for the claims about dataset.py. -/
inductive F where
| fin (x : ℝ) : F
| pinf : F
| ninf : F
| nan : F

instance : Inhabited F := ⟨F.nan⟩

/-- Addition on extended values, following IEEE rules. -/
def Fadd : F → F → F
| .nan, _ => .nan
| _, .nan => .nan
| .fin a, .fin b => .fin (a + b)
| .fin _, .pinf => .pinf
| .pinf, .fin _ => .pinf
| .pinf, .pinf => .pinf
| .fin _, .ninf => .ninf
| .ninf, .fin _ => .ninf
| .ninf, .ninf => .ninf
| .pinf, .ninf => .nan
| .ninf, .pinf => .nan

/-- Multiplication on extended values, following IEEE rules: zero times an
infinity is NaN, NaN propagates. -/
def Fmul : F → F → F
| .nan, _ => .nan
| _, .nan => .nan
| .fin a, .fin b => .fin (a * b)
| .fin a, .pinf => if 0 < a then .pinf else if a < 0 then .ninf else .nan
| .pinf, .fin a => if 0 < a then .pinf else if a < 0 then .ninf else .nan
| .fin a, .ninf => if 0 < a then .ninf else if a < 0 then .pinf else .nan
| .ninf, .fin a => if 0 < a then .ninf else if a < 0 then .pinf else .nan
| .pinf, .pinf => .pinf
| .pinf, .ninf => .ninf
| .ninf, .pinf => .ninf
| .ninf, .ninf => .pinf

/-- Division on extended values, following IEEE rules as used by numpy true
division: a positive finite value divided by zero is positive infinity,
zero divided by zero is NaN.  The model has no signed zero. -/
def Fdiv : F → F → F
| .nan, _ => .nan
| _, .nan => .nan
| .fin a, .fin b =>
    if b = 0 then (if 0 < a then .pinf else if a < 0 then .ninf else .nan)
    else .fin (a / b)
| .fin _, .pinf => .fin 0
| .fin _, .ninf => .fin 0
| .pinf, .fin b => if b < 0 then .ninf else .pinf
| .ninf, .fin b => if b < 0 then .pinf else .ninf
| .pinf, .pinf => .nan
| .pinf, .ninf => .nan
| .ninf, .pinf => .nan
| .ninf, .ninf => .nan

/-- Square root on extended values, following numpy: the square root of a
negative value is NaN. -/
def Fsqrt : F → F
| .fin x => if x < 0 then .nan else .fin (Real.sqrt x)
| .pinf => .pinf
| .ninf => .nan
| .nan => .nan

/-- Sum of a list of extended values. -/
def Fsum (l : List F) : F := l.foldr Fadd (.fin 0)

/-- Shallow embedding of the pivot_worker function of dataset.py.  The source
computes doclen as the sum of Python len over the elements of the document it
receives, and the document it receives is a bag-of-words list whose elements
are 2-tuples, so every element contributes exactly 2. -/
def pivot_worker (document : Doc) (slope avgdl : ℝ) : Doc :=
  let doclen : ℝ := (document.map (fun _ => (2 : ℝ))).sum
  document.map (fun p => (p.1, p.2 / ((1 - slope) * avgdl + slope * doclen)))

/-- Modelled from the spec: the pivoted TF-IDF transform whose doclen is the
sum of the character lengths of the tokens of the document (the b SMART
scheme named by the docstring of pivot_worker, and the quantity whose
average Dataset.from_documents precomputes as avgdl). -/
def pivot_worker_spec (tokens : List String) (document : Doc) (slope avgdl : ℝ) : Doc :=
  let doclen : ℝ := (tokens.map (fun t => (t.length : ℝ))).sum
  document.map (fun p => (p.1, p.2 / ((1 - slope) * avgdl + slope * doclen)))

/-- Average document character length of a tokenized corpus, as computed by
Dataset.from_documents of dataset.py. -/
def avgdlOf (corpus : List (List String)) : ℝ :=
  (corpus.map (fun d => (d.map (fun t => (t.length : ℝ))).sum)).sum / (corpus.length : ℝ)

/-- Gensim Dictionary: a bidirectional token to id mapping, modelled as the
token list indexed by id. -/
structure Dict where
  tokens : List String

/-- The token2id direction of a dictionary. -/
def Dict.token2id (d : Dict) (t : String) : Option Nat := d.tokens.indexOf? t

/-- The id2token direction of a dictionary. -/
def Dict.id2token (d : Dict) (i : Nat) : Option String := d.tokens.get? i

/-- Number of entries of a dictionary, the Python len. -/
def Dict.size (d : Dict) : Nat := d.tokens.length

/-- Gensim doc2bow: counts of the dictionary tokens present in the tokenized
document, listed in increasing id order; tokens outside the dictionary are
dropped. -/
def doc2bow (d : Dict) (doc : List String) : Doc :=
  (List.range d.tokens.length).filterMap (fun i =>
    match d.tokens.get? i with
    | some t => if doc.count t = 0 then none else some (i, (doc.count t : ℝ))
    | none => none)

/-- The two vector norms offered by gensim matutils.unitvec. -/
inductive VNorm where
| l1 : VNorm
| l2 : VNorm

/-- Length of a sparse vector under a norm, as gensim matutils.unitvec
computes it. -/
def vecLength : VNorm → Doc → ℝ
| .l2, d => Real.sqrt ((d.map (fun p => p.2 ^ 2)).sum)
| .l1, d => (d.map (fun p => |p.2|)).sum

/-- Gensim matutils.unitvec on a sparse document: divide every stored weight
by the length unless the length is already one.  An empty document is
returned unchanged (its map is empty). -/
def unitvec (norm : VNorm) (d : Doc) : Doc :=
  let length := vecLength norm d
  if length = 1 then d else d.map (fun p => (p.1, p.2 / length))

/-- Shallow embedding of translate_document_worker of dataset.py: remap the
ids of the stored entries from the source dictionary to the target
dictionary, dropping terms absent from the target. -/
def translate_document_worker (document : Doc) (source target : Dict) : Doc :=
  document.filterMap (fun p =>
    match source.id2token p.1 with
    | some tok =>
      match target.token2id tok with
      | some nid => some (nid, p.2)
      | none => none
    | none => none)

/-- Total stored weight of a document at a term id; scipy sparse sums
duplicate stored entries, an absent term contributes zero. -/
def valueAt (d : Doc) (t : Nat) : ℝ :=
  ((d.filter (fun p => p.1 = t)).map (fun p => p.2)).sum

/-- Dot product of two sparse documents, the entry of the product of the two
corpus2csc matrices. -/
def dotDoc (a b : Doc) : ℝ := (a.map (fun p => p.2 * valueAt b p.1)).sum

/-- Euclidean distance between two embedding rows, the entry of the
sklearn euclidean_distances matrix. -/
def eudist (u v : List ℝ) : ℝ :=
  Real.sqrt (((u.zip v).map (fun p => (p.1 - p.2) ^ 2)).sum)

/-- The union of the term ids of two documents, in order of first
appearance.  The source builds this with a Python set union (the variable
named shared_terms); set iteration order is unspecified and the earth-mover
distance below does not depend on it. -/
def unionTerms (q c : Doc) : List Nat := (q.map Prod.fst ++ c.map Prod.fst).dedup

/-- A feasible transport plan between two histograms of length n: nonnegative
entries whose row sums are the first histogram and whose column sums are the
second. -/
def feasiblePlan (n : Nat) (P Q : Nat → ℝ) (T : Nat → Nat → ℝ) : Prop :=
  (∀ i j, i < n → j < n → 0 ≤ T i j) ∧
  (∀ i, i < n → ((List.range n).map (fun j => T i j)).sum = P i) ∧
  (∀ j, j < n → ((List.range n).map (fun i => T i j)).sum = Q j)

/-- Total cost of a transport plan under a distance matrix. -/
def planCost (n : Nat) (D T : Nat → Nat → ℝ) : ℝ :=
  ((List.range n).map (fun i => ((List.range n).map (fun j => T i j * D i j)).sum)).sum

/-- The earth-mover distance, the mathematical meaning of the external
pyemd.emd routine: the least total transport cost over feasible plans. -/
def emd (n : Nat) (P Q : Nat → ℝ) (D : Nat → Nat → ℝ) : ℝ :=
  sInf (Set.image (planCost n D) {T | feasiblePlan n P Q T})

/-- The earth-mover distance between the term-weight distributions of a query
document and a collection document with cost the Euclidean distance between
embedding rows, everything restricted to the union of the two documents'
terms; the first histogram handed to pyemd.emd is the collection document. -/
def wmdPairDistance (emb : Nat → List ℝ) (q c : Doc) : ℝ :=
  emd (unionTerms q c).length
    (fun i => valueAt c ((unionTerms q c).getD i 0))
    (fun i => valueAt q ((unionTerms q c).getD i 0))
    (fun i j => eudist (emb ((unionTerms q c).getD i 0)) (emb ((unionTerms q c).getD j 0)))

/-- Shallow embedding of inverse_wmd_worker of dataset.py: unpack the work
unit carrying its own coordinates, build the union of the two documents'
term ids, translate both documents onto that index set, build the Euclidean
distance matrix over the embedding rows of those terms for the requested
quantization level, and return the coordinates with the inverse earth-mover
distance: zero when the union is empty, positive infinity when the distance
is exactly zero, the reciprocal otherwise. -/
def inverse_wmd_worker (embMats : Nat → Nat → List ℝ)
    (args : (Nat × Doc) × (Nat × Doc) × Nat) : Nat × Nat × F :=
  let row_number := args.1.1
  let query_document := args.1.2
  let column_number := args.2.1.1
  let collection_document := args.2.1.2
  let num_bits := args.2.2
  let emb := embMats num_bits
  let shared_terms := unionTerms query_document collection_document
  if shared_terms = [] then (row_number, column_number, F.fin 0)
  else
    let distance :=
      emd shared_terms.length
        (fun i => valueAt collection_document (shared_terms.getD i 0))
        (fun i => valueAt query_document (shared_terms.getD i 0))
        (fun i j => eudist (emb (shared_terms.getD i 0)) (emb (shared_terms.getD j 0)))
    (row_number, column_number, if distance = 0 then F.pinf else F.fin (1 / distance))

/-- Concrete embedding table for the word-mover scenarios: term 0 embeds at
the origin, every other term at the point with coordinates 3 and 4. -/
def embC1 : Nat → Nat → List ℝ := fun _ t => if t = 0 then [0, 0] else [3, 4]

/-- Concrete query document holding only term 0 with weight 1. -/
def qDocC1 : Doc := [(0, 1)]

/-- Concrete collection document holding only term 1 with weight 1; it
shares no term with the query document above. -/
def cDocC1 : Doc := [(1, 1)]

/-- Commit one worker result into the dense result matrix at the coordinates
the result itself carries, as the aggregation loop of the word-mover branch
of Dataset.get_similarities does. -/
def commitResult (m : Nat → Nat → F) (r : Nat × Nat × F) : Nat → Nat → F :=
  fun i j => if i = r.1 ∧ j = r.2.1 then r.2.2 else m i j

/-- Scatter a list of worker results, in arrival order, into the matrix. -/
def scatter (results : List (Nat × Nat × F)) (init : Nat → Nat → F) : Nat → Nat → F :=
  results.foldl commitResult init

/-- The work units handed to the pool: the itertools.product of the
enumerated query corpus, the enumerated collection corpus, and the
single quantization level. -/
def wmdWorkUnits (query_corpus collection_corpus : List Doc) (num_bits : Nat) :
    List ((Nat × Doc) × (Nat × Doc) × Nat) :=
  (query_corpus.enum ×ˢ collection_corpus.enum).map (fun p => (p.1, p.2, num_bits))

/-- The multiset of worker results for one word-mover similarity request;
pool.imap_unordered may deliver them in any order. -/
def wmdResults (embMats : Nat → Nat → List ℝ)
    (query_corpus collection_corpus : List Doc) (num_bits : Nat) : List (Nat × Nat × F) :=
  (wmdWorkUnits query_corpus collection_corpus num_bits).map (inverse_wmd_worker embMats)

/-- Concrete one-document query corpus for the scatter scenario. -/
def qCorpusC8 : List Doc := [qDocC1]

/-- Concrete two-document collection corpus for the scatter scenario. -/
def cCorpusC8 : List Doc := [cDocC1, qDocC1]

/-- Concrete uninitialized result matrix (np.empty holds arbitrary values;
NaN everywhere is one such arbitrary content). -/
def initC8 : Nat → Nat → F := fun _ _ => F.nan

/-- Replacement of positive-infinity entries by zero, the effect of the
assignment matrix[matrix == np.inf] = 0.0 on one stored entry; negative
infinity and NaN are not replaced. -/
def replacePinf : F → F
| .pinf => .fin 0
| v => v

/-- Self-similarity of a document under the term-similarity matrix: the
document's entry of collection_matrix.T.dot(term_matrix)
.multiply(collection_matrix.T).sum(axis=1) in the sparse-soft-VSM branch of
Dataset.get_similarities. -/
def selfSim (M : Nat → Nat → ℝ) (d : Doc) : ℝ :=
  (d.map (fun pb => pb.2 * (d.map (fun pa => pa.2 * M pa.1 pb.1)).sum)).sum

/-- The column scale 1 / sqrt of the self-similarity, in extended-value
arithmetic as numpy computes it. -/
def normScale (M : Nat → Nat → ℝ) (d : Doc) : F :=
  Fdiv (F.fin 1) (Fsqrt (F.fin (selfSim M d)))

/-- A document column after multiplication by its scale and the replacement
of positive-infinity stored entries by zero.  Implicit zeros of the sparse
column are untouched by both steps. -/
def normalizeDocF (M : Nat → Nat → ℝ) (d : Doc) : List (Nat × F) :=
  d.map (fun p => (p.1, replacePinf (Fmul (F.fin p.2) (normScale M d))))

/-- Entry of the sparse-soft-VSM similarity matrix for one collection
document and one query document: the triple product
collection_matrix.T.dot(term_matrix).dot(query_matrix), transposed so rows
are queries, evaluated over the stored entries of the two normalized
columns. -/
def sparseSoftEntry (M : Nat → Nat → ℝ) (c q : Doc) : F :=
  Fsum ((normalizeDocF M c).map (fun pa =>
    Fsum ((normalizeDocF M q).map (fun pb =>
      Fmul (Fmul pa.2 (F.fin (M pa.1 pb.1))) pb.2))))

/-- Concrete term-similarity matrix with unit diagonal and off-diagonal
entries minus three quarters; entries of this size arise from cosine
similarities with a negative threshold and an odd exponent. -/
def mC3 : Nat → Nat → ℝ := fun a b => if a = b then 1 else -(3 / 4)

/-- Concrete collection document whose self-similarity under mC3 is
negative. -/
def cDocC3 : Doc := [(0, 1), (1, 1), (2, 1)]

/-- Concrete query document with self-similarity one under mC3. -/
def qDocC3 : Doc := [(0, 1)]

/-- Concrete identity-like term-similarity matrix for the C3 witness. -/
def mC3w : Nat → Nat → ℝ := fun a b => if a = b then 1 else -1

/-- Concrete collection document with zero self-similarity under mC3w. -/
def cDocC3w : Doc := [(0, 1), (1, 1)]

/-- Durable store of the term-similarity cache, filename to stored matrix:
the matrices directory of compressed pickles. -/
abbrev TermStore (M : Type _) := List (String × M)

/-- The Python str of a boolean. -/
def pyBool : Bool → String
| true => "True"
| false => "False"

/-- The sparse-soft-VSM parameter tuple that keys the term-similarity
cache. -/
structure TermParams where
  num_bits : Nat
  tfidf : Bool
  symmetric : Bool
  dominant : Bool
  nonzero_limit : Nat
  threshold : ℚ
  exponent : Nat

/-- The basename string built by Dataset.get_similarities: the parameter
fields joined with dashes in the fixed order quantization level, TF-IDF
flag, symmetric flag, dominant flag, nonzero cap, threshold, exponent.
Python renders the float threshold slightly differently from the rational
toString used here; only the fixed order matters to the claims. -/
def termBasename (p : TermParams) : String :=
  toString p.num_bits ++ "-" ++ pyBool p.tfidf ++ "-" ++ pyBool p.symmetric ++ "-" ++
    pyBool p.dominant ++ "-" ++ toString p.nonzero_limit ++ "-" ++
    toString p.threshold ++ "-" ++ toString p.exponent

/-- Shallow embedding of cached_sparse_term_similarity_matrix of dataset.py:
look the file up in the durable store; on a hit return the stored matrix, on
a miss run the build (the SparseTermSimilarityMatrix constructor, an
external routine taken as a parameter), persist its matrix and return it.
The third component counts how many times the build ran. -/
def cached_sparse_term_similarity_matrix {M : Type _} (build : Unit → M)
    (basename : String) (store : TermStore M) : M × TermStore M × Nat :=
  let filename := "matrices/termsim-" ++ basename ++ ".pkl.xz"
  match store.lookup filename with
  | some term_matrix => (term_matrix, store, 0)
  | none =>
    let term_matrix := build ()
    (term_matrix, (filename, term_matrix) :: store, 1)

/-- Gensim KeyedVectors: the embedding vocabulary in index order and the
matrix of vectors, one row per vocabulary word. -/
structure KeyedVectors where
  vocabList : List String
  vectors : List (List ℝ)

/-- The row index of a token in the embedding matrix (the .vocab mapping
with its .index attribute); none when the token has no embedding. -/
def KeyedVectors.vocabIndex (kv : KeyedVectors) (t : String) : Option Nat :=
  kv.vocabList.indexOf? t

/-- Width of the source embedding matrix, its shape along axis one. -/
def KeyedVectors.dim (kv : KeyedVectors) : Nat := (kv.vectors.headD []).length

/-- The (source row, target row) pairs of translate_embeddings of
dataset.py: one pair for every dictionary term, in increasing term id order,
whose token is in the embedding vocabulary. -/
def translationPairs (kv : KeyedVectors) (dictionary : Dict) : List (Nat × Nat) :=
  (List.range dictionary.tokens.length).filterMap (fun term_id =>
    match dictionary.id2token term_id with
    | some tok => (kv.vocabIndex tok).map (fun si => (si, term_id))
    | none => none)

/-- A Python error escaping one of the modelled routines. -/
inductive PyError where
| valueErrorUnpack : PyError
| unboundLocalQueryCorpus : PyError
| unboundLocalDocSims : PyError
deriving DecidableEq

/-- Shallow embedding of translate_embeddings of dataset.py: build the
(source row, target row) pairs of dictionary terms present in the embedding
vocabulary; unpacking them with zip raises ValueError when the pair list is
empty; otherwise the target matrix rows listed by term id hold the source
vector for translated terms and zero rows for the rest. -/
def translate_embeddings (kv : KeyedVectors) (dictionary : Dict) :
    Except PyError (List (List ℝ)) :=
  let pairs := translationPairs kv dictionary
  if pairs = [] then .error .valueErrorUnpack
  else
    .ok ((List.range dictionary.tokens.length).map (fun term_id =>
      match (pairs.filter (fun pr => pr.2 == term_id)).head? with
      | some pr => (kv.vectors.get? pr.1).getD (List.replicate kv.dim 0)
      | none => List.replicate kv.dim 0))

/-- Concrete embedding vocabulary for the translation scenario: one word
with a one-dimensional vector. -/
def kvC9 : KeyedVectors := ⟨["x"], [[7]]⟩

/-- Concrete dictionary whose single token has no embedding. -/
def dictC9 : Dict := ⟨["a"]⟩

/-- Dense column l2 norm, as sklearn preprocessing.normalize computes it. -/
def l2normList (v : List ℝ) : ℝ := Real.sqrt ((v.map (fun x => x ^ 2)).sum)

/-- One row or column normalized to unit l2 norm by sklearn
preprocessing.normalize; a zero vector is left unchanged (sklearn replaces
zero norms by one before dividing). -/
def rowNormalize (v : List ℝ) : List ℝ :=
  if l2normList v = 0 then v else v.map (fun x => x / l2normList v)

/-- Projection of a sparse document through the row-normalized embedding
matrix: the dense document vector of the dense-soft-VSM branch. -/
def denseVec (emb : Nat → List ℝ) (dims : Nat) (d : Doc) : List ℝ :=
  (List.range dims).map (fun k =>
    (d.map (fun p => ((rowNormalize (emb p.1)).getD k 0) * p.2)).sum)

/-- Dot product of two dense vectors. -/
def listDot (u v : List ℝ) : ℝ := ((u.zip v).map (fun p => p.1 * p.2)).sum

/-- Entry of the dense-soft-VSM similarity: inner product of the two
l2-normalized dense document vectors. -/
def denseSoftEntry (emb : Nat → List ℝ) (dims : Nat) (q c : Doc) : ℝ :=
  listDot (rowNormalize (denseVec emb dims q)) (rowNormalize (denseVec emb dims c))

/-- The space field of a similarity request. -/
inductive Space where
| vsm : Space
| sparse_soft_vsm : Space
| dense_soft_vsm : Space
| random : Space
deriving DecidableEq

/-- The weights field of a similarity request. -/
inductive Weights where
| bow : Weights
| tfidf : Weights
| binary : Weights
| random : Weights
deriving DecidableEq

/-- The measure field of a similarity request. -/
inductive Measure where
| inner_product : Measure
| wmd : Measure
| random : Measure
deriving DecidableEq

/-- The task field of a similarity request. -/
inductive Task where
| classification : Task
| other : Task
deriving DecidableEq

/-- The params dictionary handed to Dataset.get_similarities: the
configuration fields together with the two corpus-cache keys that
get_similarities itself stores into the dictionary (absent on a fresh
dictionary, modelled with Option). -/
structure Params where
  space : Space
  weights : Weights
  measure : Measure
  task : Task
  num_bits : Nat
  slope : ℝ
  tfidf : Bool
  symmetric : Bool
  dominant : Bool
  nonzero_limit : Nat
  threshold : ℚ
  exponent : Nat
  collection_corpus : Option (List Doc)
  query_corpus : Option (List Doc)

/-- A dataset, as the Dataset class of dataset.py: tokenized corpus,
average document character length, collection-local dictionary and
labels. -/
structure Dataset where
  corpus : List (List String)
  avgdl : ℝ
  dictionary : Dict
  target : List Nat

/-- Process-wide read-only state of dataset.py built at import time,
together with the external-library behaviours the engine calls into: the
shared dictionary, the embedding matrices and their widths per quantization
level, the gensim TfidfModel transform, the gensim term-matrix build, the
durable term-matrix store, the arrival order the worker pool happens to
deliver, and the arbitrary content of np.empty. -/
structure Globals where
  common_dictionary : Dict
  embMats : Nat → Nat → List ℝ
  embDims : Nat → Nat
  tfidfModel : Dict → Doc → Doc
  buildTermMatrix : TermParams → Nat → Nat → ℝ
  termStore : TermStore (Nat → Nat → ℝ)
  arrival : List (Nat × Nat × F) → List (Nat × Nat × F)
  emptyMatrix : Nat → Nat → F

/-- First phase of Dataset.get_similarities: encode the collection corpus
according to the weights, storing the raw bag-of-words corpus under the
collection_corpus key of params when absent.  For the tfidf weights the raw
corpus is weighted by the collection TfidfModel, pivoted, and translated to
the shared dictionary; for the bow weights it is unit-normalized (l1 under
the word-mover measure, l2 otherwise); other weights leave it raw. -/
def encodeCollection (G : Globals) (collection : Dataset) (params : Params) :
    List Doc × Params :=
  match params.weights with
  | .tfidf =>
    let raw := params.collection_corpus.getD
      (collection.corpus.map (doc2bow collection.dictionary))
    (((raw.map (G.tfidfModel collection.dictionary)).map
        (fun d => pivot_worker d params.slope collection.avgdl)).map
        (fun d => translate_document_worker d collection.dictionary G.common_dictionary),
      { params with collection_corpus := some raw })
  | w =>
    let raw := params.collection_corpus.getD
      (collection.corpus.map (doc2bow G.common_dictionary))
    (if w = .bow then
        raw.map (unitvec (if params.measure = .wmd then .l1 else .l2))
      else raw,
      { params with collection_corpus := some raw })

/-- Second phase of Dataset.get_similarities: encode the query corpus.  The
source assigns the local query_corpus only inside the classification task
for the tfidf and bow weights; every other path leaves it unassigned,
modelled as none. -/
def encodeQueries (G : Globals) (collection queries : Dataset) (params : Params) :
    Option (List Doc) × Params :=
  if params.task = .classification then
    match params.weights with
    | .tfidf =>
      let raw := params.query_corpus.getD
        (queries.corpus.map (doc2bow collection.dictionary))
      (some (((raw.map (G.tfidfModel collection.dictionary)).map
          (fun d => pivot_worker d params.slope collection.avgdl)).map
          (fun d => translate_document_worker d collection.dictionary G.common_dictionary)),
        { params with query_corpus := some raw })
    | .bow =>
      let raw := params.query_corpus.getD
        (queries.corpus.map (doc2bow G.common_dictionary))
      (some (if params.measure = .wmd then raw.map (unitvec .l1)
          else raw.map (unitvec .l2)),
        { params with query_corpus := some raw })
    | _ => (none, params)
  else (none, params)

/-- The similarity branch of Dataset.get_similarities, after both corpora
are encoded: branch on the measure and then on the space.  A measure or a
space with no branch reaches the never-assigned local doc_sims. -/
def simBranch (G : Globals) (collection_corpus query_corpus : List Doc)
    (params2 : Params) :
    Except PyError ((Nat → Nat → F) × Params × TermStore (Nat → Nat → ℝ)) :=
  if params2.measure = .wmd then
    .ok (scatter (G.arrival (wmdResults G.embMats query_corpus collection_corpus
        params2.num_bits)) G.emptyMatrix,
      params2, G.termStore)
  else if params2.measure = .inner_product then
    if params2.space = .vsm then
      .ok ((fun i j => F.fin (dotDoc (query_corpus.getD i [])
          (collection_corpus.getD j []))),
        params2, G.termStore)
    else if params2.space = .dense_soft_vsm then
      .ok ((fun i j => F.fin (denseSoftEntry (G.embMats params2.num_bits)
          (G.embDims params2.num_bits) (query_corpus.getD i [])
          (collection_corpus.getD j []))),
        params2, G.termStore)
    else if params2.space = .sparse_soft_vsm then
      let tp : TermParams := ⟨params2.num_bits, params2.tfidf, params2.symmetric,
        params2.dominant, params2.nonzero_limit, params2.threshold, params2.exponent⟩
      let r := cached_sparse_term_similarity_matrix
        (fun _ => G.buildTermMatrix tp) (termBasename tp) G.termStore
      .ok ((fun i j => sparseSoftEntry r.1 (collection_corpus.getD j [])
          (query_corpus.getD i [])),
        params2, r.2.1)
    else .error .unboundLocalDocSims
  else .error .unboundLocalDocSims

/-- Shallow embedding of Dataset.get_similarities of dataset.py: encode the
two corpora (mutating the params dictionary), then run the similarity
branch.  Referencing the never-assigned local query_corpus (any weights
without an encoding branch, or any task other than classification) is the
unbound-local fault.  Returns the dense similarity matrix as a total
function together with the mutated params and the durable store after the
call. -/
def getSimilarities (G : Globals) (collection queries : Dataset) (params : Params) :
    Except PyError ((Nat → Nat → F) × Params × TermStore (Nat → Nat → ℝ)) :=
  let enc := encodeCollection G collection params
  let encq := encodeQueries G collection queries enc.2
  match encq.1 with
  | none => .error .unboundLocalQueryCorpus
  | some query_corpus => simBranch G enc.1 query_corpus encq.2

/-- Concrete shared dictionary for the dispatcher scenarios. -/
def dictW : Dict := ⟨["a", "b"]⟩

/-- Concrete globals for the dispatcher scenarios: trivial embedding tables,
identity TfidfModel, zero term matrix, empty store, identity arrival order,
NaN-filled uninitialized matrices. -/
def gW : Globals :=
  ⟨dictW, fun _ _ => [0], fun _ => 1, fun _ d => d, fun _ _ _ => 0, [], id, fun _ _ => F.nan⟩

/-- Concrete collection dataset with one one-token document. -/
def dsW : Dataset := ⟨[["a"]], 1, dictW, [0]⟩

/-- Concrete alternative query dataset with a different document. -/
def dsW2 : Dataset := ⟨[["b"]], 1, dictW, [1]⟩

/-- Concrete params of a bag-of-words inner-product vsm classification
request with a fresh dictionary. -/
def paramsW : Params :=
  ⟨.vsm, .bow, .inner_product, .classification, 32, 0, false, false, false, 100, 0, 1,
    none, none⟩

/-- Concrete params with the binary weights that the classify docstring
lists as a valid option. -/
def paramsC5 : Params :=
  ⟨.vsm, .binary, .inner_product, .classification, 32, 0, false, false, false, 100, 0, 1,
    none, none⟩

/-- Concrete params whose corpus caches are already populated, as a second
get_similarities call would receive them. -/
def paramsC10 : Params :=
  ⟨.vsm, .bow, .inner_product, .classification, 32, 0, false, false, false, 100, 0, 1,
    some [[(0, 1)]], some [[(0, 1)]]⟩

/-- One grid configuration of the classify evaluator: the request fields it
tunes plus the k of the nearest-neighbor sweep. -/
structure Config where
  space : Space
  weights : Weights
  measure : Measure
  num_bits : Nat
  slope : ℝ
  tfidf : Bool
  symmetric : Bool
  dominant : Bool
  nonzero_limit : Nat
  threshold : ℚ
  exponent : Nat
  k : Nat

/-- Modelled from the spec: the ClassificationResult of common.py, which is
not under src.  It carries the validation accuracy and a snapshot of the
configuration it was computed under, and results are ordered by accuracy. -/
structure CResult where
  accuracy : ℚ
  config : Config

/-- The pivoting slope grid, np.linspace(0, 1, 11). -/
def slopeGrid : List ℝ := (List.range 11).map (fun i => (i : ℝ) / 10)

/-- The symmetric flag grid of classify. -/
def symmetricGrid : List Bool := [true, false]

/-- The dominant flag grid of classify. -/
def dominantGrid : List Bool := [true, false]

/-- The term-weighting flag grid of classify. -/
def tfidfGrid : List Bool := [true, false]

/-- The nonzero-cap grid of classify. -/
def nonzeroGrid : List Nat := [100, 200, 400, 800]

/-- The threshold grid of classify. -/
def thresholdGrid : List ℚ := [-1, -1/2, 0, 1/2]

/-- The exponent grid of classify. -/
def exponentGrid : List Nat := [1, 2, 3, 4]

/-- The grid of configurations classify walks for a base configuration: the
itertools.product over the parameter value lists in the insertion order of
the grid specification (slope when the weights are tfidf, then the six
sparse-soft-VSM parameters when the space is sparse_soft_vsm); an empty
specification yields the single base configuration. -/
def gridConfigs (base : Config) : List Config :=
  let slopes : List (Config → Config) :=
    if base.weights = .tfidf then slopeGrid.map (fun s c => { c with slope := s })
    else [id]
  let sparses : List (Config → Config) :=
    if base.space = .sparse_soft_vsm then
      symmetricGrid.flatMap (fun sy =>
        dominantGrid.flatMap (fun dm =>
          tfidfGrid.flatMap (fun tf =>
            nonzeroGrid.flatMap (fun nz =>
              thresholdGrid.flatMap (fun th =>
                exponentGrid.map (fun ex => (fun c : Config =>
                  { c with
                      symmetric := sy
                      dominant := dm
                      tfidf := tf
                      nonzero_limit := nz
                      threshold := th
                      exponent := ex })))))))
    else [id]
  slopes.flatMap (fun f => sparses.map (fun g => g (f base)))

/-- The odd k ladder of classify. -/
def kLadder : List Nat := [1, 3, 5, 7, 9, 11, 13, 15, 17, 19]

/-- Python max over a list with a running first element: replace the
current maximum only when an item compares strictly greater, so the first
element among equal maxima wins; results compare by accuracy (the result
ordering, modelled from the spec). -/
def maxResult (l : List CResult) (first : CResult) : CResult :=
  l.foldl (fun best r => if best.accuracy < r.accuracy then r else best) first

/-- The list of validation results of one grid search: for every grid point
one similarity matrix, evaluated under the ten k values. -/
def gridResults (sim : Dataset → Config → Nat → Nat → F)
    (fromSim : (Nat → Nat → F) → Dataset → Config → CResult)
    (validation : Dataset) (base : Config) : List CResult :=
  (gridConfigs base).flatMap (fun g =>
    kLadder.map (fun k => fromSim (sim validation g) validation { g with k := k }))

/-- The winning validation result, Python max over the result list. -/
def bestResult (sim : Dataset → Config → Nat → Nat → F)
    (fromSim : (Nat → Nat → F) → Dataset → Config → CResult)
    (validation : Dataset) (base : Config) : CResult :=
  maxResult (gridResults sim fromSim validation base).tail
    ((gridResults sim fromSim validation base).headD ⟨0, base⟩)

/-- Modelled from the spec and the control flow of classify of dataset.py,
with the similarity engine and the ClassificationResult evaluation of
common.py as oracles: for the random space an immediate baseline; otherwise
walk the grid, computing the validation similarity matrix once per grid
point and evaluating the k ladder on that one matrix, pick the best
validation result, recompute the similarity matrix once against the test
collection under the winning configuration and return its result.  The
second component logs every engine call, in order. -/
def classify (randomBaseline : Unit → CResult)
    (sim : Dataset → Config → Nat → Nat → F)
    (fromSim : (Nat → Nat → F) → Dataset → Config → CResult)
    (validation test : Dataset) (base : Config) :
    CResult × List (Dataset × Config) :=
  if base.space = .random then (randomBaseline (), [])
  else
    let acc := (gridConfigs base).foldl (fun acc g =>
      (acc.1 ++ kLadder.map (fun k => fromSim (sim validation g) validation { g with k := k }),
        acc.2 ++ [(validation, g)])) ([], [])
    let best := maxResult acc.1.tail (acc.1.headD ⟨0, base⟩)
    (fromSim (sim test best.config) test best.config, acc.2 ++ [(test, best.config)])

/-- Concrete engine oracle for the evaluator scenario. -/
def simC7 : Dataset → Config → Nat → Nat → F := fun _ _ _ _ => F.fin 0

/-- Concrete evaluation oracle for the evaluator scenario. -/
def fromSimC7 : (Nat → Nat → F) → Dataset → Config → CResult := fun _ _ cfg => ⟨1, cfg⟩

/-- Concrete base configuration for the evaluator scenario. -/
def baseC7 : Config := ⟨.vsm, .bow, .inner_product, 32, 0, false, false, false, 100, 0, 1, 1⟩

/-- Concrete random baseline oracle for the evaluator scenario. -/
def randomBaselineC7 : Unit → CResult := fun _ => ⟨0, baseC7⟩

end

theorem inverse_wmd_worker_eq (embMats : Nat → Nat → List ℝ) (q c : Doc) (row col nb : Nat) :
    inverse_wmd_worker embMats ((row, q), (col, c), nb) =
      (row, col,
        if unionTerms q c = [] then F.fin 0
        else if wmdPairDistance (embMats nb) q c = 0 then F.pinf
        else F.fin (1 / wmdPairDistance (embMats nb) q c)) := by
  by_cases h : unionTerms q c = [] <;>
    simp [inverse_wmd_worker, wmdPairDistance, h]

theorem emd_two_point (P Q : Nat → ℝ) (D : Nat → Nat → ℝ)
    (hP0 : P 0 = 0) (hP1 : P 1 = 1) (hQ0 : Q 0 = 1) (hQ1 : Q 1 = 0) :
    emd 2 P Q D = D 1 0 := by
  have hr2 : List.range 2 = [0, 1] := rfl
  have hset : Set.image (planCost 2 D) {T | feasiblePlan 2 P Q T} = {D 1 0} := by
    apply Set.eq_singleton_iff_unique_mem.mpr
    constructor
    · refine ⟨fun i j => if i = 1 ∧ j = 0 then 1 else 0, ⟨?_, ?_, ?_⟩, ?_⟩
      · intro i j _ _
        by_cases h : i = 1 ∧ j = 0 <;> simp [h]
      · intro i hi
        interval_cases i <;> simp [hr2, hP0, hP1]
      · intro j hj
        interval_cases j <;> simp [hr2, hQ0, hQ1]
      · simp [planCost, hr2]
    · rintro x ⟨T, ⟨hnn, hrow, hcol⟩, rfl⟩
      have h0sum : T 0 0 + T 0 1 = 0 := by
        have := hrow 0 (by norm_num)
        simpa [hr2, hP0] using this
      have h00 : T 0 0 = 0 :=
        (add_eq_zero_iff_of_nonneg (hnn 0 0 (by norm_num) (by norm_num))
          (hnn 0 1 (by norm_num) (by norm_num))).mp h0sum |>.1
      have h01 : T 0 1 = 0 :=
        (add_eq_zero_iff_of_nonneg (hnn 0 0 (by norm_num) (by norm_num))
          (hnn 0 1 (by norm_num) (by norm_num))).mp h0sum |>.2
      have h10 : T 1 0 = 1 := by
        have := hcol 0 (by norm_num)
        simp [hr2, hQ0, h00] at this
        linarith
      have h11 : T 1 1 = 0 := by
        have := hrow 1 (by norm_num)
        simp [hr2, hP1, h10] at this
        linarith
      simp [planCost, hr2, h00, h01, h10, h11]
  rw [emd, hset, csInf_singleton]

theorem eudist_c1 : eudist [(3 : ℝ), 4] [0, 0] = 5 := by
  have h25 : ((3 : ℝ) - 0) ^ 2 + (((4 : ℝ) - 0) ^ 2 + 0) = 5 ^ 2 := by norm_num
  simp only [eudist, List.zip_cons_cons, List.zip_nil_right, List.map_cons, List.map_nil,
    List.sum_cons, List.sum_nil]
  rw [h25]
  exact Real.sqrt_sq (by norm_num : (0 : ℝ) ≤ 5)

theorem c1_distance : wmdPairDistance (embC1 32) qDocC1 cDocC1 = 5 := by
  have hu : unionTerms qDocC1 cDocC1 = [0, 1] := rfl
  simp only [wmdPairDistance, hu, List.length_cons, List.length_nil]
  rw [emd_two_point]
  · show eudist (embC1 32 ([0, 1].getD 1 0)) (embC1 32 ([0, 1].getD 0 0)) = 5
    have h1 : embC1 32 ([0, 1].getD 1 0) = [(3 : ℝ), 4] := by simp [embC1]
    have h0 : embC1 32 ([0, 1].getD 0 0) = [(0 : ℝ), 0] := by simp [embC1]
    rw [h1, h0, eudist_c1]
  · simp [valueAt, cDocC1]
  · simp [valueAt, cDocC1]
  · simp [valueAt, qDocC1]
  · simp [valueAt, qDocC1]

/-- C1 counterexample: the query document holds only term 0 and the
collection document holds only term 1, so the two documents share no terms;
the claim would give similarity 0, but under the word-mover measure the code
computes the earth-mover distance over the union of the two term sets, here
5, and returns its reciprocal one fifth, which is not 0. -/
theorem c1_no_shared_terms_counterexample :
    (qDocC1.map Prod.fst).inter (cDocC1.map Prod.fst) = [] ∧
    (inverse_wmd_worker embC1 ((0, qDocC1), (1, cDocC1), 32)).2.2 = F.fin (1 / 5) ∧
    F.fin (1 / 5) ≠ F.fin 0 := by
  refine ⟨rfl, ?_, ?_⟩
  · rw [inverse_wmd_worker_eq]
    have hu : unionTerms qDocC1 cDocC1 = [0, 1] := rfl
    rw [if_neg (by simp [hu]), if_neg (by rw [c1_distance]; norm_num), c1_distance]
  · simp only [ne_eq, F.fin.injEq]
    norm_num

/-- C1 (amended): under the word-mover measure the worker returns its own
coordinates together with the similarity: 0 when the union of the two
documents' term sets is empty (the source tests the union built by the set
union of the two key sets, not the intersection, so two nonempty documents
sharing no term do not fall in this case), positive infinity when the
earth-mover distance between the two term-weight distributions over the
union, with cost the Euclidean distance between embedding rows, is exactly
0, and the reciprocal of that distance otherwise. -/
theorem c1_inverse_wmd_similarity_cases (embMats : Nat → Nat → List ℝ)
    (q c : Doc) (row col nb : Nat) :
    inverse_wmd_worker embMats ((row, q), (col, c), nb) =
      (row, col,
        if unionTerms q c = [] then F.fin 0
        else if wmdPairDistance (embMats nb) q c = 0 then F.pinf
        else F.fin (1 / wmdPairDistance (embMats nb) q c)) :=
  inverse_wmd_worker_eq embMats q c row col nb

theorem worker_coords (embMats : Nat → Nat → List ℝ)
    (u : (Nat × Doc) × (Nat × Doc) × Nat) :
    (inverse_wmd_worker embMats u).1 = u.1.1 ∧
    (inverse_wmd_worker embMats u).2.1 = u.2.1.1 := by
  by_cases h : unionTerms u.1.2 u.2.1.2 = [] <;> simp [inverse_wmd_worker, h]

theorem scatter_eq_of_not_mem (l : List (Nat × Nat × F)) (m : Nat → Nat → F) (i j : Nat)
    (h : ∀ r ∈ l, ¬(i = r.1 ∧ j = r.2.1)) : scatter l m i j = m i j := by
  induction l generalizing m with
  | nil => rfl
  | cons a t ih =>
    show scatter t (commitResult m a) i j = m i j
    rw [ih (commitResult m a) (fun r hr => h r (List.mem_cons_of_mem a hr))]
    simp only [commitResult, if_neg (h a (List.mem_cons_self a t))]

theorem scatter_eq_of_mem (l : List (Nat × Nat × F)) (m : Nat → Nat → F) (i j : Nat) (v : F)
    (hnd : (l.map (fun r => (r.1, r.2.1))).Nodup)
    (hmem : (i, j, v) ∈ l) : scatter l m i j = v := by
  induction l generalizing m with
  | nil => simp at hmem
  | cons a t ih =>
    rw [List.map_cons, List.nodup_cons] at hnd
    rcases List.mem_cons.mp hmem with heq | hmem2
    · subst heq
      show scatter t (commitResult m (i, j, v)) i j = v
      rw [scatter_eq_of_not_mem]
      · simp [commitResult]
      · intro r hr hc
        exact hnd.1 (List.mem_map.mpr ⟨r, hr, by rw [← hc.1, ← hc.2]⟩)
    · exact ih (commitResult m a) hnd.2 hmem2

theorem mem_wmdWorkUnits (qc cc : List Doc) (nb i j : Nat)
    (hi : i < qc.length) (hj : j < cc.length) :
    ((i, qc.getD i []), (j, cc.getD j []), nb) ∈ wmdWorkUnits qc cc nb := by
  apply List.mem_map.mpr
  refine ⟨((i, qc.getD i []), (j, cc.getD j [])), ?_, rfl⟩
  apply List.mem_product.mpr
  constructor
  · apply List.mk_mem_enum_iff_getElem?.mpr
    simp [List.getD_eq_getElem?_getD, List.getElem?_eq_getElem hi]
  · apply List.mk_mem_enum_iff_getElem?.mpr
    simp [List.getD_eq_getElem?_getD, List.getElem?_eq_getElem hj]

theorem wmdResults_coords_nodup (embMats : Nat → Nat → List ℝ)
    (qc cc : List Doc) (nb : Nat) :
    ((wmdResults embMats qc cc nb).map (fun r => (r.1, r.2.1))).Nodup := by
  have key : (wmdResults embMats qc cc nb).map (fun r => (r.1, r.2.1)) =
      (qc.enum ×ˢ cc.enum).map
        (fun p : (Nat × Doc) × (Nat × Doc) => (p.1.1, p.2.1)) := by
    unfold wmdResults wmdWorkUnits
    rw [List.map_map, List.map_map]
    apply List.map_congr_left
    intro p _
    simp only [Function.comp_apply]
    have h := worker_coords embMats (p.1, p.2, nb)
    exact Prod.ext h.1 h.2
  rw [key]
  apply List.Nodup.map_on
  · rintro ⟨⟨i1, q1⟩, j1, c1⟩ h1 ⟨⟨i2, q2⟩, j2, c2⟩ h2 hco
    obtain ⟨hq1, hc1⟩ := List.mem_product.mp h1
    obtain ⟨hq2, hc2⟩ := List.mem_product.mp h2
    obtain ⟨hi, hj⟩ := Prod.mk.injEq .. ▸ hco
    simp only at hi hj
    subst hi; subst hj
    rw [List.mk_mem_enum_iff_getElem?] at hq1 hq2 hc1 hc2
    have hq : q1 = q2 := by rw [hq1] at hq2; exact Option.some.inj hq2
    have hc : c1 = c2 := by rw [hc1] at hc2; exact Option.some.inj hc2
    rw [hq, hc]
  · exact List.Nodup.product
      (List.Nodup.of_map Prod.fst (List.nodup_enum_map_fst qc))
      (List.Nodup.of_map Prod.fst (List.nodup_enum_map_fst cc))

/-- C8: the word-mover document-similarity matrix does not depend on worker
completion order: every (query, collection) pair is one work unit carrying
its own coordinates, each result is committed exactly once at those
coordinates, and for every arrival order that is a permutation of the worker
results the matrix entry at (i, j) equals the inverse word-mover distance
between query document i and collection document j. -/
theorem c8_wmd_scatter_order_independent (embMats : Nat → Nat → List ℝ)
    (qc cc : List Doc) (nb : Nat) (init : Nat → Nat → F)
    (arrived : List (Nat × Nat × F))
    (hperm : arrived.Perm (wmdResults embMats qc cc nb))
    (i j : Nat) (hi : i < qc.length) (hj : j < cc.length) :
    scatter arrived init i j =
      (inverse_wmd_worker embMats ((i, qc.getD i []), (j, cc.getD j []), nb)).2.2 := by
  set u : (Nat × Doc) × (Nat × Doc) × Nat := ((i, qc.getD i []), (j, cc.getD j []), nb) with hu
  have hco := worker_coords embMats u
  have hres : inverse_wmd_worker embMats u ∈ wmdResults embMats qc cc nb :=
    List.mem_map.mpr ⟨u, mem_wmdWorkUnits qc cc nb i j hi hj, rfl⟩
  have hshape : inverse_wmd_worker embMats u =
      (i, j, (inverse_wmd_worker embMats u).2.2) := by
    refine Prod.ext ?_ (Prod.ext ?_ rfl)
    · exact hco.1
    · exact hco.2
  apply scatter_eq_of_mem
  · exact ((hperm.map (fun r => (r.1, r.2.1))).nodup_iff).mpr
      (wmdResults_coords_nodup embMats qc cc nb)
  · exact hperm.mem_iff.mpr (hshape ▸ hres)

/-- C8 witness: a one-query, two-collection-document scenario in which the
results arrive in reversed order still fills entry (0, 1) with the inverse
word-mover distance of query 0 against collection document 1. -/
theorem c8_wmd_scatter_witness :
    (wmdResults embC1 qCorpusC8 cCorpusC8 32).reverse.Perm
      (wmdResults embC1 qCorpusC8 cCorpusC8 32) ∧
    scatter (wmdResults embC1 qCorpusC8 cCorpusC8 32).reverse initC8 0 1 =
      (inverse_wmd_worker embC1 ((0, qCorpusC8.getD 0 []), (1, cCorpusC8.getD 1 []), 32)).2.2 :=
  ⟨List.reverse_perm _,
    c8_wmd_scatter_order_independent embC1 qCorpusC8 cCorpusC8 32 initC8 _
      (List.reverse_perm _) 0 1 (by simp [qCorpusC8]) (by simp [cCorpusC8])⟩

/-- C2: the claim says the pivoted TF-IDF denominator is
(1 - slope) * avgdl + slope * doclen with doclen the summed character length
of the tokens of the document; in the code doclen is twice the number of
stored bag-of-words entries, because the Python len of a 2-tuple is 2.  On a
document with a single five-character token encoded as one BOW entry of
weight 1, with slope 1, the code divides by 2 while the specified formula
divides by 5; avgdl of the singleton corpus is indeed its character
length 5. -/
theorem c2_pivot_doclen_code_bug :
    pivot_worker [(0, (1 : ℝ))] 1 5 = [(0, 1 / 2)] ∧
    pivot_worker_spec ["hello"] [(0, (1 : ℝ))] 1 5 = [(0, 1 / 5)] ∧
    avgdlOf [["hello"]] = 5 := by
  have h5 : "hello".length = 5 := rfl
  refine ⟨?_, ?_, ?_⟩ <;> simp [pivot_worker, pivot_worker_spec, avgdlOf, h5]

theorem Fmul_fin (a b : ℝ) : Fmul (F.fin a) (F.fin b) = F.fin (a * b) := rfl

theorem Fadd_fin (a b : ℝ) : Fadd (F.fin a) (F.fin b) = F.fin (a + b) := rfl

theorem Fsum_map_fin {α : Type _} (l : List α) (f : α → ℝ) :
    Fsum (l.map (fun a => F.fin (f a))) = F.fin ((l.map f).sum) := by
  induction l with
  | nil => rfl
  | cons a t ih =>
    rw [List.map_cons, List.map_cons, List.sum_cons]
    show Fadd (F.fin (f a)) (Fsum (t.map (fun a => F.fin (f a)))) = _
    rw [ih, Fadd_fin]

theorem normScale_of_selfSim_zero (M : Nat → Nat → ℝ) (d : Doc)
    (h : selfSim M d = 0) : normScale M d = F.pinf := by
  simp [normScale, h, Fsqrt, Fdiv, Real.sqrt_zero]

theorem normScale_of_selfSim_pos (M : Nat → Nat → ℝ) (d : Doc)
    (h : 0 < selfSim M d) :
    normScale M d = F.fin (1 / Real.sqrt (selfSim M d)) := by
  have hs : ¬ selfSim M d < 0 := not_lt.mpr h.le
  have hsq : Real.sqrt (selfSim M d) ≠ 0 := ne_of_gt (Real.sqrt_pos.mpr h)
  simp [normScale, Fsqrt, Fdiv, hs, hsq]

theorem normScale_of_selfSim_neg (M : Nat → Nat → ℝ) (d : Doc)
    (h : selfSim M d < 0) : normScale M d = F.nan := by
  simp [normScale, Fsqrt, Fdiv, h]

theorem normalizeDocF_of_zero (M : Nat → Nat → ℝ) (d : Doc)
    (hd : ∀ p ∈ d, 0 < p.2) (h : selfSim M d = 0) :
    normalizeDocF M d = d.map (fun p => (p.1, F.fin 0)) := by
  unfold normalizeDocF
  apply List.map_congr_left
  intro p hp
  rw [normScale_of_selfSim_zero M d h]
  simp [Fmul, replacePinf, hd p hp]

theorem normalizeDocF_of_pos (M : Nat → Nat → ℝ) (d : Doc)
    (h : 0 < selfSim M d) :
    normalizeDocF M d =
      d.map (fun p => (p.1, F.fin (p.2 * (1 / Real.sqrt (selfSim M d))))) := by
  unfold normalizeDocF
  apply List.map_congr_left
  intro p _
  rw [normScale_of_selfSim_pos M d h, Fmul_fin]
  rfl

theorem sparseSoftEntry_fin (M : Nat → Nat → ℝ) (c q : Doc) (fc fq : Nat × ℝ → ℝ)
    (hc : normalizeDocF M c = c.map (fun p => (p.1, F.fin (fc p))))
    (hq : normalizeDocF M q = q.map (fun p => (p.1, F.fin (fq p)))) :
    sparseSoftEntry M c q =
      F.fin ((c.map (fun pa => (q.map (fun pb => fc pa * M pa.1 pb.1 * fq pb)).sum)).sum) := by
  rw [sparseSoftEntry, hc, hq, List.map_map]
  have houter : ((fun pa : Nat × F => Fsum ((q.map (fun p => (p.1, F.fin (fq p)))).map
        (fun pb => Fmul (Fmul pa.2 (F.fin (M pa.1 pb.1))) pb.2))) ∘
        (fun p : Nat × ℝ => (p.1, F.fin (fc p)))) =
      fun p : Nat × ℝ => F.fin ((q.map (fun pb => fc p * M p.1 pb.1 * fq pb)).sum) := by
    funext p
    simp only [Function.comp_apply, List.map_map]
    have hinner : ((fun pb : Nat × F => Fmul (Fmul (F.fin (fc p)) (F.fin (M p.1 pb.1))) pb.2) ∘
          (fun pb : Nat × ℝ => (pb.1, F.fin (fq pb)))) =
        fun pb : Nat × ℝ => F.fin (fc p * M p.1 pb.1 * fq pb) := by
      funext pb
      simp only [Function.comp_apply, Fmul_fin]
    rw [hinner, Fsum_map_fin]
  rw [houter, Fsum_map_fin]

/-- C3 (amended): with positively weighted stored entries, a document with
zero self-similarity under the term-similarity matrix yields similarity
exactly zero against every document of nonnegative self-similarity (the
division by zero produces positive infinities that the code explicitly
replaces with zero), and a pair of documents with positive self-similarity
always yields a finite entry, never NaN or infinite.  Documents of negative
self-similarity (possible once the matrix holds negative entries) are not
covered: they produce NaN, see the counterexample. -/
theorem c3_sparse_soft_zero_and_finite (M : Nat → Nat → ℝ) (c q : Doc)
    (hc : ∀ p ∈ c, 0 < p.2) (hq : ∀ p ∈ q, 0 < p.2) :
    (selfSim M c = 0 → 0 ≤ selfSim M q → sparseSoftEntry M c q = F.fin 0) ∧
    (selfSim M q = 0 → 0 ≤ selfSim M c → sparseSoftEntry M c q = F.fin 0) ∧
    (0 < selfSim M c → 0 < selfSim M q → ∃ x : ℝ, sparseSoftEntry M c q = F.fin x) := by
  refine ⟨?_, ?_, ?_⟩
  · intro h0 hqnn
    rcases eq_or_lt_of_le hqnn with hq0 | hqpos
    · rw [sparseSoftEntry_fin M c q (fun _ => 0) (fun _ => 0)
        (normalizeDocF_of_zero M c hc h0) (normalizeDocF_of_zero M q hq hq0.symm)]
      norm_num
    · rw [sparseSoftEntry_fin M c q (fun _ => 0)
        (fun p => p.2 * (1 / Real.sqrt (selfSim M q)))
        (normalizeDocF_of_zero M c hc h0) (normalizeDocF_of_pos M q hqpos)]
      norm_num
  · intro h0 hcnn
    rcases eq_or_lt_of_le hcnn with hc0 | hcpos
    · rw [sparseSoftEntry_fin M c q (fun _ => 0) (fun _ => 0)
        (normalizeDocF_of_zero M c hc hc0.symm) (normalizeDocF_of_zero M q hq h0)]
      norm_num
    · rw [sparseSoftEntry_fin M c q
        (fun p => p.2 * (1 / Real.sqrt (selfSim M c))) (fun _ => 0)
        (normalizeDocF_of_pos M c hcpos) (normalizeDocF_of_zero M q hq h0)]
      norm_num
  · intro hcp hqp
    exact ⟨_, sparseSoftEntry_fin M c q _ _
      (normalizeDocF_of_pos M c hcp) (normalizeDocF_of_pos M q hqp)⟩

/-- C3 counterexample: under a term-similarity matrix with unit diagonal and
off-diagonal entries minus three quarters, the document on terms 0, 1, 2
with unit weights has self-similarity minus three halves, which is nonzero;
the query on term 0 has self-similarity one; yet the similarity entry is
NaN, because 1 / sqrt of a negative self-similarity is NaN and the code only
replaces positive infinity, never NaN. -/
theorem c3_negative_selfsim_nan_counterexample :
    selfSim mC3 cDocC3 = -(3 / 2) ∧ selfSim mC3 qDocC3 = 1 ∧
    sparseSoftEntry mC3 cDocC3 qDocC3 = F.nan := by
  have h1 : selfSim mC3 cDocC3 = -(3 / 2) := by norm_num [selfSim, mC3, cDocC3]
  have h2 : selfSim mC3 qDocC3 = 1 := by norm_num [selfSim, mC3, qDocC3]
  refine ⟨h1, h2, ?_⟩
  have hscale : normScale mC3 cDocC3 = F.nan :=
    normScale_of_selfSim_neg _ _ (by rw [h1]; norm_num)
  have hqn : normalizeDocF mC3 qDocC3 = [(0, F.fin 1)] := by
    rw [normalizeDocF_of_pos mC3 qDocC3 (by rw [h2]; norm_num)]
    simp only [h2]
    simp only [qDocC3, List.map_cons, List.map_nil]
    norm_num [Real.sqrt_one]
  have hcn : normalizeDocF mC3 cDocC3 = [(0, F.nan), (1, F.nan), (2, F.nan)] := by
    unfold normalizeDocF
    rw [hscale]
    simp [cDocC3, Fmul, replacePinf]
  rw [sparseSoftEntry, hcn, hqn]
  simp [Fsum, Fmul, Fadd]

/-- C3 witness: a document of zero self-similarity paired with a document of
positive self-similarity yields similarity exactly zero. -/
theorem c3_zero_selfsim_witness :
    selfSim mC3w cDocC3w = 0 ∧ selfSim mC3w qDocC3 = 1 ∧
    sparseSoftEntry mC3w cDocC3w qDocC3 = F.fin 0 := by
  have h0 : selfSim mC3w cDocC3w = 0 := by norm_num [selfSim, mC3w, cDocC3w]
  have h1 : selfSim mC3w qDocC3 = 1 := by norm_num [selfSim, mC3w, qDocC3]
  refine ⟨h0, h1, ?_⟩
  exact (c3_sparse_soft_zero_and_finite mC3w cDocC3w qDocC3
    (by
      rintro p hp
      simp only [cDocC3w, List.mem_cons, List.not_mem_nil, or_false] at hp
      rcases hp with rfl | rfl <;> norm_num)
    (by
      rintro p hp
      simp only [qDocC3, List.mem_cons, List.not_mem_nil, or_false] at hp
      subst hp
      norm_num)).1 h0 (by rw [h1]; norm_num)


theorem cached_hit {M : Type _} (build : Unit → M) (k : String) (store : TermStore M)
    (m : M) (h : store.lookup ("matrices/termsim-" ++ k ++ ".pkl.xz") = some m) :
    cached_sparse_term_similarity_matrix build k store = (m, store, 0) := by
  simp [cached_sparse_term_similarity_matrix, h]

theorem cached_miss {M : Type _} (build : Unit → M) (k : String) (store : TermStore M)
    (h : store.lookup ("matrices/termsim-" ++ k ++ ".pkl.xz") = none) :
    cached_sparse_term_similarity_matrix build k store =
      (build (), ("matrices/termsim-" ++ k ++ ".pkl.xz", build ()) :: store, 1) := by
  simp [cached_sparse_term_similarity_matrix, h]

/-- C4: two calls of the term-similarity-matrix cache with an identical
parameter tuple return the same matrix (hence matrices with identical
nonzero structure and values), the underlying build runs at most once
across the two calls per durable-store lifetime (zero times when the store
already holds the key), and the cache key concatenates, in fixed order, the
quantization level, TF-IDF flag, symmetric flag, dominant flag, nonzero
cap, threshold and exponent, joined with dashes. -/
theorem c4_term_matrix_cache {M : Type _} (build : Unit → M) (p : TermParams)
    (store : TermStore M) :
    (cached_sparse_term_similarity_matrix build (termBasename p) store).1 =
      (cached_sparse_term_similarity_matrix build (termBasename p)
        (cached_sparse_term_similarity_matrix build (termBasename p) store).2.1).1 ∧
    (cached_sparse_term_similarity_matrix build (termBasename p) store).2.2 +
      (cached_sparse_term_similarity_matrix build (termBasename p)
        (cached_sparse_term_similarity_matrix build (termBasename p) store).2.1).2.2 ≤ 1 ∧
    termBasename p =
      toString p.num_bits ++ "-" ++ pyBool p.tfidf ++ "-" ++ pyBool p.symmetric ++ "-" ++
        pyBool p.dominant ++ "-" ++ toString p.nonzero_limit ++ "-" ++
        toString p.threshold ++ "-" ++ toString p.exponent := by
  have hmain : (cached_sparse_term_similarity_matrix build (termBasename p) store).1 =
      (cached_sparse_term_similarity_matrix build (termBasename p)
        (cached_sparse_term_similarity_matrix build (termBasename p) store).2.1).1 ∧
      (cached_sparse_term_similarity_matrix build (termBasename p) store).2.2 +
      (cached_sparse_term_similarity_matrix build (termBasename p)
        (cached_sparse_term_similarity_matrix build (termBasename p) store).2.1).2.2 ≤ 1 := by
    cases ho : store.lookup ("matrices/termsim-" ++ termBasename p ++ ".pkl.xz") with
    | some m =>
      rw [cached_hit build (termBasename p) store m ho]
      rw [cached_hit build (termBasename p) store m ho]
      exact ⟨rfl, by norm_num⟩
    | none =>
      rw [cached_miss build (termBasename p) store ho]
      have hsec : (("matrices/termsim-" ++ termBasename p ++ ".pkl.xz", build ()) :: store).lookup
          ("matrices/termsim-" ++ termBasename p ++ ".pkl.xz") = some (build ()) := by
        simp [List.lookup]
      rw [cached_hit build (termBasename p) _ (build ()) hsec]
      exact ⟨rfl, by norm_num⟩
  exact ⟨hmain.1, hmain.2, rfl⟩

theorem mem_translationPairs (kv : KeyedVectors) (dictionary : Dict)
    (pr : Nat × Nat) (h : pr ∈ translationPairs kv dictionary) :
    ∃ tok, dictionary.id2token pr.2 = some tok ∧ kv.vocabIndex tok = some pr.1 := by
  rcases List.mem_filterMap.mp h with ⟨i, _, hf⟩
  rcases hid : dictionary.id2token i with _ | tok
  · rw [hid] at hf
    simp at hf
  · rw [hid] at hf
    have hf2 : Option.map (fun si => (si, i)) (kv.vocabIndex tok) = some pr := hf
    rcases Option.map_eq_some'.mp hf2 with ⟨si, hvi, hpr⟩
    refine ⟨tok, ?_, ?_⟩
    · rw [← hpr]
      exact hid
    · rw [← hpr]
      exact hvi

/-- C9: for a dictionary none of whose terms occurs in the source embedding
vocabulary, translate_embeddings raises an error (unpacking the empty
sequence of row pairs) instead of returning the all-zero matrix its
docstring implies; when at least one dictionary term has an embedding the
call succeeds and every row whose term has no embedding is the zero row. -/
theorem c9_translate_embeddings_empty_vocab (kv : KeyedVectors) (dictionary : Dict) :
    ((∀ t ∈ dictionary.tokens, kv.vocabIndex t = none) →
      translate_embeddings kv dictionary = .error .valueErrorUnpack) ∧
    (translationPairs kv dictionary ≠ [] →
      ∃ m, translate_embeddings kv dictionary = .ok m ∧
        ∀ tid tok, dictionary.id2token tid = some tok → kv.vocabIndex tok = none →
          m.getD tid [] = List.replicate kv.dim 0) := by
  constructor
  · intro h
    have hp : translationPairs kv dictionary = [] := by
      rw [translationPairs, List.filterMap_eq_nil_iff]
      intro i hi
      rcases hid : dictionary.id2token i with _ | tok
      · rfl
      · have htok : tok ∈ dictionary.tokens := by
          rcases List.get?_eq_some.mp hid with ⟨hlt, hget⟩
          exact hget ▸ List.get_mem dictionary.tokens i hlt
        show Option.map (fun si => (si, i)) (kv.vocabIndex tok) = none
        rw [h tok htok]
        rfl
    simp [translate_embeddings, hp]
  · intro hne
    refine ⟨(List.range dictionary.tokens.length).map (fun term_id =>
        match ((translationPairs kv dictionary).filter (fun pr => pr.2 == term_id)).head? with
        | some pr => (kv.vectors.get? pr.1).getD (List.replicate kv.dim 0)
        | none => List.replicate kv.dim 0), ?_, ?_⟩
    · simp only [translate_embeddings]
      rw [if_neg hne]
    · intro tid tok hid hvi
      have htid : tid < dictionary.tokens.length := by
        rcases List.get?_eq_some.mp hid with ⟨hlt, _⟩
        exact hlt
      have hfil : (translationPairs kv dictionary).filter (fun pr => pr.2 == tid) = [] := by
        rw [List.filter_eq_nil_iff]
        intro pr hpr hb
        rcases mem_translationPairs kv dictionary pr hpr with ⟨tok2, hid2, hvi2⟩
        have hpr2 : pr.2 = tid := by simpa using hb
        rw [hpr2, hid] at hid2
        rw [← Option.some.inj hid2] at hvi2
        rw [hvi] at hvi2
        exact Option.noConfusion hvi2
      rw [List.getD_eq_getElem?_getD, List.getElem?_map, List.getElem?_range htid]
      simp only [Option.map_some', Option.getD_some]
      rw [hfil]
      rfl

/-- C9 witness: a dictionary whose single token has no embedding makes
translate_embeddings raise the unpack ValueError. -/
theorem c9_translate_embeddings_witness :
    translate_embeddings kvC9 dictC9 = .error .valueErrorUnpack :=
  (c9_translate_embeddings_empty_vocab kvC9 dictC9).1 (by decide)

theorem encodeCollection_snd (G : Globals) (coll : Dataset) (params : Params) :
    (encodeCollection G coll params).2 =
      { params with
          collection_corpus := some (params.collection_corpus.getD (coll.corpus.map
            (doc2bow (if params.weights = .tfidf then coll.dictionary
              else G.common_dictionary)))) } := by
  rcases h : params.weights <;> simp [encodeCollection, h]

theorem encodeCollection_fst_bow (G : Globals) (coll : Dataset) (params : Params)
    (hw : params.weights = .bow) :
    (encodeCollection G coll params).1 =
      (params.collection_corpus.getD (coll.corpus.map (doc2bow G.common_dictionary))).map
        (unitvec (if params.measure = .wmd then .l1 else .l2)) := by
  simp [encodeCollection, hw]

theorem encodeQueries_none (G : Globals) (coll q : Dataset) (params : Params)
    (h : params.weights = .binary ∨ params.weights = .random) :
    (encodeQueries G coll q params).1 = none := by
  by_cases ht : params.task = Task.classification <;>
    rcases h with h | h <;> simp [encodeQueries, h, ht]

theorem encodeQueries_snd (G : Globals) (coll q : Dataset) (params : Params)
    (htask : params.task = .classification)
    (hw : params.weights = .bow ∨ params.weights = .tfidf) :
    (encodeQueries G coll q params).2 =
      { params with
          query_corpus := some (params.query_corpus.getD (q.corpus.map
            (doc2bow (if params.weights = .tfidf then coll.dictionary
              else G.common_dictionary)))) } := by
  rcases hw with h | h <;> simp [encodeQueries, htask, h]

theorem encodeQueries_fst_some (G : Globals) (coll q : Dataset) (params : Params)
    (htask : params.task = .classification)
    (hw : params.weights = .bow ∨ params.weights = .tfidf) :
    ∃ qc, (encodeQueries G coll q params).1 = some qc := by
  rcases hw with h | h <;> simp [encodeQueries, htask, h]

theorem encodeQueries_fst_bow (G : Globals) (coll q : Dataset) (params : Params)
    (htask : params.task = .classification) (hw : params.weights = .bow) :
    (encodeQueries G coll q params).1 = some (if params.measure = .wmd
      then (params.query_corpus.getD (q.corpus.map (doc2bow G.common_dictionary))).map
        (unitvec .l1)
      else (params.query_corpus.getD (q.corpus.map (doc2bow G.common_dictionary))).map
        (unitvec .l2)) := by
  simp [encodeQueries, htask, hw]

theorem getSimilarities_none (G : Globals) (coll q : Dataset) (params : Params)
    (hqc : (encodeQueries G coll q (encodeCollection G coll params).2).1 = none) :
    getSimilarities G coll q params = .error .unboundLocalQueryCorpus := by
  simp only [getSimilarities]
  rw [hqc]

theorem getSimilarities_eq_branch (G : Globals) (coll q : Dataset) (params : Params)
    (qc : List Doc)
    (hqc : (encodeQueries G coll q (encodeCollection G coll params).2).1 = some qc) :
    getSimilarities G coll q params =
      simBranch G (encodeCollection G coll params).1 qc
        (encodeQueries G coll q (encodeCollection G coll params).2).2 := by
  simp only [getSimilarities]
  rw [hqc]

/-- C5: for a configuration whose weights have no encoding branch (binary,
which the classify docstring lists as valid, or random), get_similarities
reaches the line that reads the local query_corpus without any branch ever
assigning it — an unbound-local fault, not a validation error; likewise a
measure with no similarity branch reaches the unbound local doc_sims. -/
theorem c5_missing_branch_unbound_local (G : Globals) (collection queries : Dataset)
    (params : Params) (ht : params.task = .classification) :
    ((params.weights = .binary ∨ params.weights = .random) →
      getSimilarities G collection queries params = .error .unboundLocalQueryCorpus) ∧
    ((params.weights = .bow ∨ params.weights = .tfidf) → params.measure = .random →
      getSimilarities G collection queries params = .error .unboundLocalDocSims) := by
  have hp1 := encodeCollection_snd G collection params
  constructor
  · intro hw
    have hw2 : (encodeCollection G collection params).2.weights = Weights.binary ∨
        (encodeCollection G collection params).2.weights = Weights.random := by
      rw [hp1]; exact hw
    exact getSimilarities_none G collection queries params
      (encodeQueries_none G collection queries (encodeCollection G collection params).2 hw2)
  · intro hw hm
    have hw2 : (encodeCollection G collection params).2.weights = Weights.bow ∨
        (encodeCollection G collection params).2.weights = Weights.tfidf := by
      rw [hp1]; exact hw
    have ht2 : (encodeCollection G collection params).2.task = Task.classification := by
      rw [hp1]; exact ht
    obtain ⟨qc, hqc⟩ := encodeQueries_fst_some G collection queries
      (encodeCollection G collection params).2 ht2 hw2
    have hp2 := encodeQueries_snd G collection queries
      (encodeCollection G collection params).2 ht2 hw2
    have hm2 : (encodeQueries G collection queries
        (encodeCollection G collection params).2).2.measure = Measure.random := by
      rw [hp2, hp1]; exact hm
    rw [getSimilarities_eq_branch G collection queries params qc hqc]
    unfold simBranch
    rw [hm2]
    simp

theorem simBranch_ok_params (G : Globals) (cc qc : List Doc) (params2 : Params)
    (r : (Nat → Nat → F) × Params × TermStore (Nat → Nat → ℝ))
    (h : simBranch G cc qc params2 = .ok r) : r.2.1 = params2 := by
  unfold simBranch at h
  by_cases h1 : params2.measure = Measure.wmd
  · rw [if_pos h1] at h
    have hx := Except.ok.inj h
    subst hx
    rfl
  · rw [if_neg h1] at h
    by_cases h2 : params2.measure = Measure.inner_product
    · rw [if_pos h2] at h
      by_cases h3 : params2.space = Space.vsm
      · rw [if_pos h3] at h
        have hx := Except.ok.inj h
        subst hx
        rfl
      · rw [if_neg h3] at h
        by_cases h4 : params2.space = Space.dense_soft_vsm
        · rw [if_pos h4] at h
          have hx := Except.ok.inj h
          subst hx
          rfl
        · rw [if_neg h4] at h
          by_cases h5 : params2.space = Space.sparse_soft_vsm
          · rw [if_pos h5] at h
            have hx := Except.ok.inj h
            subst hx
            rfl
          · rw [if_neg h5] at h
            exact absurd h (by simp)
    · rw [if_neg h2] at h
      exact absurd h (by simp)

theorem getSimilarities_ok_params (G : Globals) (coll q : Dataset) (params : Params)
    (r : (Nat → Nat → F) × Params × TermStore (Nat → Nat → ℝ))
    (h : getSimilarities G coll q params = .ok r) :
    r.2.1 = (encodeQueries G coll q (encodeCollection G coll params).2).2 := by
  cases hqc : (encodeQueries G coll q (encodeCollection G coll params).2).1 with
  | none =>
    rw [getSimilarities_none G coll q params hqc] at h
    exact absurd h (by simp)
  | some qc =>
    rw [getSimilarities_eq_branch G coll q params qc hqc] at h
    exact simBranch_ok_params G (encodeCollection G coll params).1 qc _ r h

/-- C10: get_similarities mutates the caller-supplied params dictionary.  A
classification call with bag-of-words or TF-IDF weights and a fresh
dictionary stores the raw encoded corpora under the collection_corpus and
query_corpus keys; no other key of the dictionary is modified; and a later
call receiving a dictionary that already carries both keys skips re-encoding
and returns the very same result even when its queries dataset differs. -/
theorem c10_params_mutation (G : Globals) (collection q1 q2 : Dataset) (params : Params)
    (hw : params.weights = .bow ∨ params.weights = .tfidf)
    (ht : params.task = .classification) :
    (params.collection_corpus = none → params.query_corpus = none →
      ∀ r, getSimilarities G collection q1 params = .ok r →
        r.2.1.collection_corpus = some (collection.corpus.map
          (doc2bow (if params.weights = .tfidf then collection.dictionary
            else G.common_dictionary))) ∧
        r.2.1.query_corpus = some (q1.corpus.map
          (doc2bow (if params.weights = .tfidf then collection.dictionary
            else G.common_dictionary)))) ∧
    (∀ r, getSimilarities G collection q1 params = .ok r →
      r.2.1.space = params.space ∧ r.2.1.weights = params.weights ∧
      r.2.1.measure = params.measure ∧ r.2.1.task = params.task ∧
      r.2.1.num_bits = params.num_bits ∧ r.2.1.slope = params.slope ∧
      r.2.1.tfidf = params.tfidf ∧ r.2.1.symmetric = params.symmetric ∧
      r.2.1.dominant = params.dominant ∧ r.2.1.nonzero_limit = params.nonzero_limit ∧
      r.2.1.threshold = params.threshold ∧ r.2.1.exponent = params.exponent) ∧
    (params.collection_corpus ≠ none → params.query_corpus ≠ none →
      getSimilarities G collection q1 params = getSimilarities G collection q2 params) := by
  have hp1 := encodeCollection_snd G collection params
  have ht2 : (encodeCollection G collection params).2.task = Task.classification := by
    rw [hp1]; exact ht
  have hw2 : (encodeCollection G collection params).2.weights = Weights.bow ∨
      (encodeCollection G collection params).2.weights = Weights.tfidf := by
    rw [hp1]; exact hw
  refine ⟨?_, ?_, ?_⟩
  · intro hcc hqc r h
    have hr := getSimilarities_ok_params G collection q1 params r h
    rw [encodeQueries_snd G collection q1 _ ht2 hw2, hp1] at hr
    rw [hr]
    constructor
    · simp [hcc]
    · simp [hqc, hp1]
  · intro r h
    have hr := getSimilarities_ok_params G collection q1 params r h
    rw [encodeQueries_snd G collection q1 _ ht2 hw2, hp1] at hr
    rw [hr]
    refine ⟨rfl, rfl, rfl, rfl, rfl, rfl, rfl, rfl, rfl, rfl, rfl, rfl⟩
  · intro hcc hqc
    have hqp : (encodeCollection G collection params).2.query_corpus = params.query_corpus := by
      rw [hp1]
    obtain ⟨qc0, hqc0⟩ := Option.ne_none_iff_exists'.mp hqc
    have hencq : encodeQueries G collection q1 (encodeCollection G collection params).2 =
        encodeQueries G collection q2 (encodeCollection G collection params).2 := by
      rcases hw2 with h | h <;>
        simp [encodeQueries, ht2, h, hqp, hqc0]
    simp only [getSimilarities]
    rw [hencq]

theorem unitvec_l2_norm (d : Doc) (h : vecLength .l2 d ≠ 0) :
    vecLength .l2 (unitvec .l2 d) = 1 := by
  by_cases h1 : vecLength VNorm.l2 d = 1
  · simp only [unitvec, if_pos h1]
    exact h1
  · have hS0 : (0 : ℝ) ≤ (d.map (fun p => p.2 ^ 2)).sum :=
      List.sum_nonneg (by
        intro x hx
        rcases List.mem_map.mp hx with ⟨p, _, rfl⟩
        positivity)
    have hSne : (d.map (fun p => p.2 ^ 2)).sum ≠ 0 := by
      intro h0
      apply h
      show Real.sqrt ((d.map (fun p => p.2 ^ 2)).sum) = 0
      rw [h0, Real.sqrt_zero]
    simp only [unitvec, if_neg h1]
    show Real.sqrt (((d.map (fun p => (p.1, p.2 / vecLength VNorm.l2 d))).map
        (fun p => p.2 ^ 2)).sum) = 1
    rw [List.map_map]
    have hfun : ((fun p : Nat × ℝ => p.2 ^ 2) ∘
        (fun p : Nat × ℝ => (p.1, p.2 / vecLength VNorm.l2 d))) =
        fun p : Nat × ℝ => p.2 ^ 2 * ((d.map (fun p => p.2 ^ 2)).sum)⁻¹ := by
      funext p
      simp only [Function.comp_apply]
      rw [div_pow]
      show p.2 ^ 2 / Real.sqrt ((d.map (fun p => p.2 ^ 2)).sum) ^ 2 = _
      rw [Real.sq_sqrt hS0, div_eq_mul_inv]
    rw [hfun, List.sum_map_mul_right, mul_inv_cancel₀ hSne, Real.sqrt_one]

theorem unitvec_l1_norm (d : Doc) (h : vecLength .l1 d ≠ 0) :
    vecLength .l1 (unitvec .l1 d) = 1 := by
  by_cases h1 : vecLength VNorm.l1 d = 1
  · simp only [unitvec, if_pos h1]
    exact h1
  · have hL0 : (0 : ℝ) ≤ (d.map (fun p => |p.2|)).sum :=
      List.sum_nonneg (by
        intro x hx
        rcases List.mem_map.mp hx with ⟨p, _, rfl⟩
        exact abs_nonneg _)
    have hLpos : 0 < vecLength VNorm.l1 d := by
      refine lt_of_le_of_ne ?_ (Ne.symm h)
      exact hL0
    simp only [unitvec, if_neg h1]
    show ((d.map (fun p => (p.1, p.2 / vecLength VNorm.l1 d))).map
        (fun p => |p.2|)).sum = 1
    rw [List.map_map]
    have hfun : ((fun p : Nat × ℝ => |p.2|) ∘
        (fun p : Nat × ℝ => (p.1, p.2 / vecLength VNorm.l1 d))) =
        fun p : Nat × ℝ => |p.2| * (vecLength VNorm.l1 d)⁻¹ := by
      funext p
      simp only [Function.comp_apply]
      rw [abs_div, abs_of_pos hLpos, div_eq_mul_inv]
    rw [hfun, List.sum_map_mul_right]
    exact mul_inv_cancel₀ h

/-- C6: under space vsm with bag-of-words weights and a fresh params
dictionary, both corpora are encoded as unit-normalized sparse vectors (l2
under the inner-product measure, l1 when the downstream measure is
word-mover, which hands the encodings to the worker pool instead of the
matrix product), the inner-product similarity matrix is the sparse matrix
product of the two encoded matrices transposed so rows are queries, and
unitvec really produces unit-norm vectors on every nonzero document. -/
theorem c6_vsm_normalized_encoding (G : Globals) (collection queries : Dataset)
    (params : Params) (hw : params.weights = .bow) (ht : params.task = .classification)
    (hcc : params.collection_corpus = none) (hqc : params.query_corpus = none) :
    (params.measure = .inner_product → params.space = .vsm →
      getSimilarities G collection queries params = .ok
        ((fun i j => F.fin (dotDoc
            (((queries.corpus.map (doc2bow G.common_dictionary)).map
              (unitvec .l2)).getD i [])
            (((collection.corpus.map (doc2bow G.common_dictionary)).map
              (unitvec .l2)).getD j []))),
          { params with
              collection_corpus := some (collection.corpus.map (doc2bow G.common_dictionary)),
              query_corpus := some (queries.corpus.map (doc2bow G.common_dictionary)) },
          G.termStore)) ∧
    (params.measure = .wmd →
      getSimilarities G collection queries params = .ok
        (scatter (G.arrival (wmdResults G.embMats
            ((queries.corpus.map (doc2bow G.common_dictionary)).map (unitvec .l1))
            ((collection.corpus.map (doc2bow G.common_dictionary)).map (unitvec .l1))
            params.num_bits)) G.emptyMatrix,
          { params with
              collection_corpus := some (collection.corpus.map (doc2bow G.common_dictionary)),
              query_corpus := some (queries.corpus.map (doc2bow G.common_dictionary)) },
          G.termStore)) ∧
    (∀ d : Doc, vecLength .l2 d ≠ 0 → vecLength .l2 (unitvec .l2 d) = 1) ∧
    (∀ d : Doc, vecLength .l1 d ≠ 0 → vecLength .l1 (unitvec .l1 d) = 1) := by
  have hp1 := encodeCollection_snd G collection params
  have ht2 : (encodeCollection G collection params).2.task = Task.classification := by
    rw [hp1]; exact ht
  have hw2 : (encodeCollection G collection params).2.weights = Weights.bow := by
    rw [hp1]; exact hw
  have hq2 : (encodeCollection G collection params).2.query_corpus = none := by
    rw [hp1]; exact hqc
  have hm2 : (encodeCollection G collection params).2.measure = params.measure := by
    rw [hp1]
  have hs2 : (encodeCollection G collection params).2.space = params.space := by
    rw [hp1]
  have hn2 : (encodeCollection G collection params).2.num_bits = params.num_bits := by
    rw [hp1]
  have hfb := encodeCollection_fst_bow G collection params hw
  rw [hcc] at hfb
  simp only [Option.getD_none] at hfb
  have hqe := encodeQueries_fst_bow G collection queries
    (encodeCollection G collection params).2 ht2 hw2
  rw [hq2, hm2] at hqe
  simp only [Option.getD_none] at hqe
  have hp2 := encodeQueries_snd G collection queries
    (encodeCollection G collection params).2 ht2 (Or.inl hw2)
  refine ⟨?_, ?_, unitvec_l2_norm, unitvec_l1_norm⟩
  · intro hm hs
    rw [hm] at hqe hfb
    rw [if_neg (by simp)] at hqe
    rw [if_neg (by simp)] at hfb
    rw [getSimilarities_eq_branch G collection queries params _ hqe]
    unfold simBranch
    have hmm : (encodeQueries G collection queries
        (encodeCollection G collection params).2).2.measure = Measure.inner_product := by
      rw [hp2]
      show (encodeCollection G collection params).2.measure = _
      rw [hm2]
      exact hm
    have hss : (encodeQueries G collection queries
        (encodeCollection G collection params).2).2.space = Space.vsm := by
      rw [hp2]
      show (encodeCollection G collection params).2.space = _
      rw [hs2]
      exact hs
    rw [hmm, hss]
    simp only [if_neg (by simp : ¬ Measure.inner_product = Measure.wmd),
      if_pos rfl]
    rw [hfb, hp2, hq2, hw2, hp1]
    simp [hcc, hw]
  · intro hm
    rw [hm] at hqe hfb
    rw [if_pos rfl] at hqe
    rw [if_pos rfl] at hfb
    rw [getSimilarities_eq_branch G collection queries params _ hqe]
    unfold simBranch
    have hmm : (encodeQueries G collection queries
        (encodeCollection G collection params).2).2.measure = Measure.wmd := by
      rw [hp2]
      show (encodeCollection G collection params).2.measure = _
      rw [hm2]
      exact hm
    have hnb : (encodeQueries G collection queries
        (encodeCollection G collection params).2).2.num_bits = params.num_bits := by
      rw [hp2]
      show (encodeCollection G collection params).2.num_bits = _
      rw [hn2]
    rw [hmm]
    simp only [if_pos rfl]
    rw [hfb, hnb, hp2, hq2, hw2, hp1]
    simp [hcc, hw]

/-- C5 witness: a classification request with the binary weights faults with
the unbound local query_corpus. -/
theorem c5_binary_weights_witness :
    getSimilarities gW dsW dsW paramsC5 = .error .unboundLocalQueryCorpus :=
  (c5_missing_branch_unbound_local gW dsW dsW paramsC5 rfl).1 (Or.inl rfl)

/-- C6 witness: the concrete bag-of-words inner-product vsm request on the
one-document datasets produces the encoded inner-product matrix. -/
theorem c6_vsm_witness :
    getSimilarities gW dsW dsW paramsW = .ok
      ((fun i j => F.fin (dotDoc
          (((dsW.corpus.map (doc2bow gW.common_dictionary)).map (unitvec .l2)).getD i [])
          (((dsW.corpus.map (doc2bow gW.common_dictionary)).map (unitvec .l2)).getD j []))),
        { paramsW with
            collection_corpus := some (dsW.corpus.map (doc2bow gW.common_dictionary)),
            query_corpus := some (dsW.corpus.map (doc2bow gW.common_dictionary)) },
        gW.termStore) :=
  (c6_vsm_normalized_encoding gW dsW dsW paramsW rfl rfl rfl rfl).1 rfl rfl

/-- C10 witness: with both corpus caches already stored in params, the call
returns the same result for two different query datasets. -/
theorem c10_params_mutation_witness :
    getSimilarities gW dsW dsW paramsC10 = getSimilarities gW dsW dsW2 paramsC10 :=
  (c10_params_mutation gW dsW dsW dsW2 paramsC10 (Or.inl rfl) rfl).2.2
    (by simp [paramsC10]) (by simp [paramsC10])

theorem maxResult_cons (a : CResult) (t : List CResult) (first : CResult) :
    maxResult (a :: t) first =
      maxResult t (if first.accuracy < a.accuracy then a else first) := rfl

theorem maxResult_mem (l : List CResult) (first : CResult) :
    maxResult l first = first ∨ maxResult l first ∈ l := by
  induction l generalizing first with
  | nil => exact Or.inl rfl
  | cons a t ih =>
    rw [maxResult_cons]
    rcases ih (if first.accuracy < a.accuracy then a else first) with h | h
    · rw [h]
      by_cases hc : first.accuracy < a.accuracy
      · rw [if_pos hc]
        exact Or.inr (List.mem_cons_self a t)
      · rw [if_neg hc]
        exact Or.inl rfl
    · exact Or.inr (List.mem_cons_of_mem a h)

theorem maxResult_le (l : List CResult) (first : CResult) :
    first.accuracy ≤ (maxResult l first).accuracy ∧
    ∀ r ∈ l, r.accuracy ≤ (maxResult l first).accuracy := by
  induction l generalizing first with
  | nil => exact ⟨le_refl _, by simp⟩
  | cons a t ih =>
    rw [maxResult_cons]
    have hih := ih (if first.accuracy < a.accuracy then a else first)
    have hfirst : first.accuracy ≤
        (if first.accuracy < a.accuracy then a else first).accuracy := by
      by_cases hc : first.accuracy < a.accuracy
      · rw [if_pos hc]
        exact le_of_lt hc
      · rw [if_neg hc]
    have ha : a.accuracy ≤
        (if first.accuracy < a.accuracy then a else first).accuracy := by
      by_cases hc : first.accuracy < a.accuracy
      · rw [if_pos hc]
      · rw [if_neg hc]
        exact le_of_not_lt hc
    refine ⟨le_trans hfirst hih.1, ?_⟩
    intro r hr
    rcases List.mem_cons.mp hr with rfl | hr2
    · exact le_trans ha hih.1
    · exact hih.2 r hr2

theorem maxResult_first_found (l : List CResult) (first : CResult) :
    maxResult l first = first ∨
    ∃ l₁ l₂, l = l₁ ++ maxResult l first :: l₂ ∧
      first.accuracy < (maxResult l first).accuracy ∧
      ∀ r ∈ l₁, r.accuracy < (maxResult l first).accuracy := by
  induction l generalizing first with
  | nil => exact Or.inl rfl
  | cons a t ih =>
    rw [maxResult_cons]
    by_cases hc : first.accuracy < a.accuracy
    · rw [if_pos hc]
      rcases ih a with h | ⟨l₁, l₂, hdec, hlt, hall⟩
      · right
        rw [h]
        exact ⟨[], t, rfl, hc, by simp⟩
      · right
        refine ⟨a :: l₁, l₂, ?_, lt_trans hc hlt, ?_⟩
        · rw [List.cons_append, ← hdec]
        · intro r hr
          rcases List.mem_cons.mp hr with rfl | hr2
          · exact hlt
          · exact hall r hr2
    · rw [if_neg hc]
      rcases ih first with h | ⟨l₁, l₂, hdec, hlt, hall⟩
      · exact Or.inl h
      · right
        refine ⟨a :: l₁, l₂, ?_, hlt, ?_⟩
        · rw [List.cons_append, ← hdec]
        · intro r hr
          rcases List.mem_cons.mp hr with rfl | hr2
          · exact lt_of_le_of_lt (le_of_not_lt hc) hlt
          · exact hall r hr2

theorem classify_foldl (sim : Dataset → Config → Nat → Nat → F)
    (fromSim : (Nat → Nat → F) → Dataset → Config → CResult)
    (validation : Dataset) (configs : List Config)
    (acc : List CResult × List (Dataset × Config)) :
    configs.foldl (fun acc g =>
      (acc.1 ++ kLadder.map (fun k => fromSim (sim validation g) validation { g with k := k }),
        acc.2 ++ [(validation, g)])) acc =
    (acc.1 ++ configs.flatMap (fun g =>
        kLadder.map (fun k => fromSim (sim validation g) validation { g with k := k })),
      acc.2 ++ configs.map (fun g => (validation, g))) := by
  induction configs generalizing acc with
  | nil => simp
  | cons a t ih =>
    rw [List.foldl_cons, ih]
    simp [List.append_assoc]

set_option maxRecDepth 4000 in
theorem gridConfigs_ne_nil (base : Config) : gridConfigs base ≠ [] := by
  have key : ∀ (slopes sparses : List (Config → Config)), slopes ≠ [] → sparses ≠ [] →
      slopes.flatMap (fun f => sparses.map (fun g => g (f base))) ≠ [] := by
    intro slopes sparses hs hsp h
    obtain ⟨f, fs, rfl⟩ := List.exists_cons_of_ne_nil hs
    obtain ⟨g, gs, rfl⟩ := List.exists_cons_of_ne_nil hsp
    simp [List.flatMap_cons] at h
  show (if base.weights = .tfidf then slopeGrid.map (fun s c => { c with slope := s })
      else [id]).flatMap (fun f =>
        (if base.space = .sparse_soft_vsm then
          symmetricGrid.flatMap (fun sy =>
            dominantGrid.flatMap (fun dm =>
              tfidfGrid.flatMap (fun tf =>
                nonzeroGrid.flatMap (fun nz =>
                  thresholdGrid.flatMap (fun th =>
                    exponentGrid.map (fun ex => (fun c : Config =>
                      { c with
                          symmetric := sy
                          dominant := dm
                          tfidf := tf
                          nonzero_limit := nz
                          threshold := th
                          exponent := ex })))))))
        else [id]).map (fun g => g (f base))) ≠ []
  apply key
  · split
    · intro h
      rw [List.map_eq_nil_iff] at h
      have hlen : slopeGrid.length = 11 := rfl
      rw [h] at hlen
      simp at hlen
    · exact List.cons_ne_nil _ _
  · split
    · simp only [symmetricGrid, dominantGrid, tfidfGrid, nonzeroGrid, thresholdGrid,
        exponentGrid, List.flatMap_cons, List.flatMap_nil, List.map_cons, List.map_nil,
        List.cons_append, List.nil_append, List.append_nil]
      exact List.cons_ne_nil _ _
    · exact List.cons_ne_nil _ _

theorem gridResults_ne_nil (sim : Dataset → Config → Nat → Nat → F)
    (fromSim : (Nat → Nat → F) → Dataset → Config → CResult)
    (validation : Dataset) (base : Config) :
    gridResults sim fromSim validation base ≠ [] := by
  unfold gridResults
  intro h
  obtain ⟨c, cs, hc⟩ := List.exists_cons_of_ne_nil (gridConfigs_ne_nil base)
  rw [hc] at h
  simp [List.flatMap_cons, kLadder] at h

/-- C7: for every non-random space, classify walks the configuration grid,
invoking the similarity engine exactly once per grid point against the
validation set (the call log lists one validation call per grid point, in
grid order, and nothing else before the test call), evaluates the
k-nearest-neighbor result for exactly the odd k values 1 through 19 on that
one matrix, selects the best validation result Python-max style so the
first result among equal maxima wins, then invokes the engine exactly once
more against the test collection under the winning configuration and
returns the test-set classification result. -/
theorem c7_classify_evaluator (randomBaseline : Unit → CResult)
    (sim : Dataset → Config → Nat → Nat → F)
    (fromSim : (Nat → Nat → F) → Dataset → Config → CResult)
    (validation test : Dataset) (base : Config) (hs : base.space ≠ .random) :
    (classify randomBaseline sim fromSim validation test base).2 =
      (gridConfigs base).map (fun g => (validation, g)) ++
        [(test, (bestResult sim fromSim validation base).config)] ∧
    (classify randomBaseline sim fromSim validation test base).1 =
      fromSim (sim test (bestResult sim fromSim validation base).config) test
        (bestResult sim fromSim validation base).config ∧
    kLadder = [1, 3, 5, 7, 9, 11, 13, 15, 17, 19] ∧
    bestResult sim fromSim validation base ∈ gridResults sim fromSim validation base ∧
    (∀ r ∈ gridResults sim fromSim validation base,
      r.accuracy ≤ (bestResult sim fromSim validation base).accuracy) ∧
    ∃ l₁ l₂, gridResults sim fromSim validation base =
        l₁ ++ bestResult sim fromSim validation base :: l₂ ∧
        ∀ r ∈ l₁, r.accuracy < (bestResult sim fromSim validation base).accuracy := by
  obtain ⟨r0, rs, hcons⟩ :=
    List.exists_cons_of_ne_nil (gridResults_ne_nil sim fromSim validation base)
  have hbest : bestResult sim fromSim validation base = maxResult rs r0 := by
    rw [bestResult, hcons]
    rfl
  have hchar : classify randomBaseline sim fromSim validation test base =
      (fromSim (sim test (bestResult sim fromSim validation base).config) test
          (bestResult sim fromSim validation base).config,
        (gridConfigs base).map (fun g => (validation, g)) ++
          [(test, (bestResult sim fromSim validation base).config)]) := by
    simp only [classify, if_neg hs]
    rw [classify_foldl]
    simp only [List.nil_append]
    rfl
  refine ⟨by rw [hchar], by rw [hchar], rfl, ?_, ?_, ?_⟩
  · rcases maxResult_mem rs r0 with h | h
    · rw [hbest, h, hcons]
      exact List.mem_cons_self r0 rs
    · rw [hbest, hcons]
      exact List.mem_cons_of_mem r0 h
  · intro r hr
    rw [hcons] at hr
    rw [hbest]
    rcases List.mem_cons.mp hr with rfl | hr2
    · exact (maxResult_le rs r).1
    · exact (maxResult_le rs r0).2 r hr2
  · rcases maxResult_first_found rs r0 with h | ⟨l₁, l₂, hdec, hlt, hall⟩
    · refine ⟨[], rs, ?_, by simp⟩
      rw [hbest, h, hcons]
      rfl
    · refine ⟨r0 :: l₁, l₂, ?_, ?_⟩
      · rw [hcons, hbest, List.cons_append, ← hdec]
      · intro r hr
        rw [hbest]
        rcases List.mem_cons.mp hr with rfl | hr2
        · exact hlt
        · exact hall r hr2

/-- C7 witness: the concrete evaluator scenario yields the logged call list
and the test result computed under the winning configuration. -/
theorem c7_classify_witness :
    (classify randomBaselineC7 simC7 fromSimC7 dsW dsW2 baseC7).2 =
      (gridConfigs baseC7).map (fun g => (dsW, g)) ++
        [(dsW2, (bestResult simC7 fromSimC7 dsW baseC7).config)] :=
  (c7_classify_evaluator randomBaselineC7 simC7 fromSimC7 dsW dsW2 baseC7
    (by simp [baseC7])).1

end RegEmb
